import Mathlib

/-!
Verification of the calibration and path-execution engine of `sphero_race.py`.

The Python source is shallowly embedded: floats become real numbers, the
robot-command interface (`set_heading`, `set_speed`, `time.sleep`) becomes a
trace of emitted commands, optional capabilities and fallible reads become
`Bool` / `Option` / `Except` values supplied by an environment record, and
Python exception propagation becomes `Except Unit`.  Display calls
(`safe_matrix_char`, LEDs) are advisory only (spec section 6) and are not part
of the command trace.
-/

noncomputable section

/-- A command sent to the robot, or a blocking wait of the single control
thread.  `set_heading` is always called on an `int(...)` value in the source,
so its payload is an integer; `set_speed` is sometimes called on a raw float
(`api.set_speed(pulse_speed)`), so its payload stays real. -/
inductive Cmd
  | setHeading (v : ℤ)
  | setSpeed (v : ℝ)
  | sleep (t : ℝ)
  deriving DecidableEq

/-- Python `int(x)` on a float: truncation toward zero. -/
def pyInt (x : ℝ) : ℤ := if 0 ≤ x then ⌊x⌋ else ⌈x⌉

/-- `norm_deg(a) = (a + 360.0) % 360.0`; Python float `%` is
`x - d * floor(x / d)` for a positive divisor `d`. -/
def normDeg (a : ℝ) : ℝ := (a + 360) - 360 * (⌊(a + 360) / 360⌋ : ℝ)

/-- `apply_offset(hdg) = norm_deg(hdg + HEADING_OFFSET)`; the module-level
`HEADING_OFFSET` global is passed explicitly as `off`. -/
def applyOffset (off hdg : ℝ) : ℝ := normDeg (hdg + off)

/-- `math.hypot(a, b)`. -/
def hypot (a b : ℝ) : ℝ := Real.sqrt (a ^ 2 + b ^ 2)

/-- `math.atan2(y, x)` (C convention, ignoring signed zeros). -/
def atan2 (y x : ℝ) : ℝ :=
  if 0 < x then Real.arctan (y / x)
  else if x < 0 ∧ 0 ≤ y then Real.arctan (y / x) + Real.pi
  else if x < 0 then Real.arctan (y / x) - Real.pi
  else if 0 < y then Real.pi / 2
  else if y < 0 then -(Real.pi / 2)
  else 0

/-- `math.degrees(r)`. -/
def degrees (r : ℝ) : ℝ := r * 180 / Real.pi

/-- `PAUSE_SEG = 0.07`: the settle pause after each stop command. -/
def PAUSE_SEG : ℝ := 0.07

/-- `STRAIGHT_SPEED = 180`. -/
def STRAIGHT_SPEED : ℝ := 180

/-- `TURN_SPEED = 140`. -/
def TURN_SPEED : ℝ := 140

/-- `SEGMENTS_DISTANCE_TURNS`: the lap as (distance in m, turn after the leg
in degrees) pairs. -/
def SEGMENTS_DISTANCE_TURNS : List (ℝ × ℝ) :=
  [(2.30, -90), (2.40, -45), (0.70, -35), (0.90, -25),
   (0.90, -15), (0.80, 60), (1.80, -90), (2.30, 0)]

/-- Outcome of calling `api.reset_locator()`.  The source catches only
`AttributeError` around this call; any other exception propagates.  The
fallback reset calls are wrapped in a bare `except Exception`, so for them a
single success `Bool` suffices. -/
inductive ResetOutcome
  | ok
  | attrErr
  | otherErr
  deriving DecidableEq

/-- Behaviour of the position-reset operations exposed by the interface:
the primary `reset_locator` and the ordered fallbacks `set_location`,
`set_locator`, `set_position` (`True` = the call returns normally). -/
structure ResetEnv where
  resetPrimary : ResetOutcome
  fallbackSetLocation : Bool
  fallbackSetLocator : Bool
  fallbackSetPosition : Bool

/-- `try_reset_locator(api)`.  `Except.error ()` models an exception escaping
the function: only a non-`AttributeError` raised by the primary
`reset_locator` call does so, since the fallback loop catches `Exception`. -/
def tryResetLocator (e : ResetEnv) : Except Unit Bool :=
  match e.resetPrimary with
  | .ok => .ok true
  | .otherErr => .error ()
  | .attrErr =>
    if e.fallbackSetLocation then .ok true
    else if e.fallbackSetLocator then .ok true
    else if e.fallbackSetPosition then .ok true
    else .ok false

/-- Environment seen by `auto_calibrate`: the `hasattr` capability check, the
reset operations, and the single `get_location()` read after the pulse
(`none` = the read raised; coordinates are in millimetres as returned by the
device). -/
structure CalEnv where
  hasLocator : Bool
  reset : ResetEnv
  location : Option (ℝ × ℝ)

/-- The module-level globals mutated by `auto_calibrate`:
`HEADING_OFFSET` and `M_PER_S_AT_170`. -/
structure CalState where
  offset : ℝ
  m170 : ℝ

/-- Result of one `auto_calibrate` run: the globals after the call, whether
the calibration computation was actually performed (i.e. the function reached
its final block rather than an early `return`), and the commands issued. -/
structure CalOut where
  offset : ℝ
  m170 : ℝ
  performed : Bool
  trace : List Cmd

/-- `auto_calibrate(api, pulse_speed=120, pulse_time=0.70)`, line by line:
stop, capability check, locator reset, calibration pulse at logical 0 deg,
position read, minimum-displacement check, then the offset/coefficient
computation.  `Except.error ()` models an exception escaping the function. -/
def autoCalibrate (env : CalEnv) (st : CalState) (pulseSpeed pulseTime : ℝ) :
    Except Unit CalOut :=
  let tr0 : List Cmd := [Cmd.setSpeed 0, Cmd.sleep 0.2]
  if env.hasLocator then
    match tryResetLocator env.reset with
    | .error _ => .error ()
    | .ok false => .ok ⟨st.offset, st.m170, false, tr0 ++ [Cmd.sleep 0.2]⟩
    | .ok true =>
      let trPulse : List Cmd := tr0 ++
        [Cmd.setHeading (pyInt (applyOffset st.offset 0)),
         Cmd.setSpeed pulseSpeed, Cmd.sleep pulseTime,
         Cmd.setSpeed 0, Cmd.sleep 0.25]
      match env.location with
      | none => .ok ⟨st.offset, st.m170, false, trPulse ++ [Cmd.sleep 0.2]⟩
      | some loc =>
        let dx := loc.1 / 1000
        let dy := loc.2 / 1000
        let dist := hypot dx dy
        if dist < 0.02 then
          .ok ⟨st.offset, st.m170, false, trPulse ++ [Cmd.sleep 0.2]⟩
        else
          let angleMoved := normDeg (degrees (atan2 (-dy) dx))
          let vMeas := dist / pulseTime
          .ok ⟨normDeg (-angleMoved),
               max 0.45 (min 0.85 (vMeas * 170 / pulseSpeed)),
               true, trPulse ++ [Cmd.sleep 0.2]⟩
  else .ok ⟨st.offset, st.m170, false, tr0 ++ [Cmd.sleep 0.2]⟩

/-- The `M_PER_S_AT_170` value after a calibration run that returned normally
(dummy value 0 on the exceptional path). -/
def calM170 (r : Except Unit CalOut) : ℝ :=
  match r with
  | .ok o => o.m170
  | .error _ => 0

/-- The open-loop duration estimate of `drive_forward_distance`
(lines 211-212): `v_ms = M_PER_S_AT_170 * (speed / 170.0)`;
`dur = distance_m / max(v_ms, 1e-6)`.  The same expression, under
`max(0.1, ...)`, gives the closed-loop timeout base `est` (line 196). -/
def openLoopDur (m170 distm speed : ℝ) : ℝ :=
  distm / max (m170 * (speed / 170)) (1 / 1000000)

/-- Environment seen by one `drive_forward_distance` call: capability check,
reset operations, the initial `get_location()` read, the stream of in-loop
reads (`readings n` is the read of the n-th loop iteration, `none` = raised),
and the wall-clock values `times n` returned by `time.time()` at the n-th
iteration's timeout check, with `t0` the value recorded at loop entry.
Coordinates are in millimetres. -/
structure DriveEnv where
  hasLocator : Bool
  reset : ResetEnv
  initialRead : Option (ℝ × ℝ)
  readings : ℕ → Option (ℝ × ℝ)
  times : ℕ → ℝ
  t0 : ℝ

/-- `use_locator = supports_locator(api) and try_reset_locator(api)`
(short-circuit: the reset is not attempted when the capability is absent). -/
def driveUseLocator (env : DriveEnv) : Except Unit Bool :=
  if env.hasLocator then tryResetLocator env.reset else .ok false

/-- The `while True` poll loop of `drive_forward_distance` (lines 197-209),
with an explicit fuel bound; `some n` means the loop exited at iteration `n`
(having slept `n` times), `none` means the fuel ran out with the loop still
running.  Iteration `n`: read position (a raised read breaks), compare the
accumulated displacement against `distm`, compare the elapsed time against
the timeout `bound = est * timeout_factor`, else sleep 20 ms and continue. -/
def pollLoop (readings : ℕ → Option (ℝ × ℝ)) (times : ℕ → ℝ)
    (t0 x0 y0 distm bound : ℝ) : ℕ → ℕ → Option ℕ
  | 0, _ => none
  | fuel + 1, n =>
    match readings n with
    | none => some n
    | some loc =>
      let d := hypot (loc.1 / 1000 - x0) (loc.2 / 1000 - y0)
      if distm ≤ d then some n
      else if bound < times n - t0 then some n
      else pollLoop readings times t0 x0 y0 distm bound fuel (n + 1)

/-- `drive_forward_distance(api, heading_deg, distance_m, speed,
timeout_factor=2.0)` as a command trace.  `none` covers both an exception
escaping (from `try_reset_locator`) and poll-loop fuel exhaustion; every
normal return is `some trace`. -/
def driveForwardDistance (env : DriveEnv) (m170 off hdg distm speed tf : ℝ)
    (fuel : ℕ) : Option (List Cmd) :=
  match driveUseLocator env with
  | .error _ => none
  | .ok useLoc0 =>
    let pre : List Cmd :=
      [Cmd.setHeading (pyInt (applyOffset off hdg)),
       Cmd.setSpeed ((pyInt speed : ℤ) : ℝ)]
    match (if useLoc0 then env.initialRead else none) with
    | some start =>
      let x0 := start.1 / 1000
      let y0 := start.2 / 1000
      let est := max 0.1 (openLoopDur m170 distm speed)
      match pollLoop env.readings env.times env.t0 x0 y0 distm (est * tf)
        fuel 0 with
      | none => none
      | some n =>
        some (pre ++ List.replicate n (Cmd.sleep 0.02) ++
          [Cmd.setSpeed 0, Cmd.sleep PAUSE_SEG])
    | none =>
      some (pre ++ [Cmd.sleep (openLoopDur m170 distm speed),
        Cmd.setSpeed 0, Cmd.sleep PAUSE_SEG])

/-- Per-leg record of `run_lap_by_distance`: heading driven, speed chosen,
turn applied afterwards, and the updated running heading. -/
structure LegRec where
  hdg : ℝ
  spd : ℝ
  turn : ℝ
  newHdg : ℝ

/-- The segment loop of `run_lap_by_distance` (lines 234-238): per segment,
choose `TURN_SPEED` when `abs(turn_deg) > 20` else `STRAIGHT_SPEED`, drive
the distance at the current running heading (timeout factor left at its
default 2.0), then `turn_by`: update the running heading by `turn_deg`
(normalized) and command the new heading with the offset applied, followed by
the 0.05 s pause.  `denvs i` is the drive environment of the i-th segment. -/
def runLapGo (denvs : ℕ → DriveEnv) (m170 off : ℝ) (fuel : ℕ) :
    List (ℝ × ℝ) → ℝ → ℕ → Option (List LegRec × List Cmd)
  | [], _, _ => some ([], [])
  | seg :: rest, hdg, i =>
    let spd := if 20 < |seg.2| then TURN_SPEED else STRAIGHT_SPEED
    match driveForwardDistance (denvs i) m170 off hdg seg.1 spd 2 fuel with
    | none => none
    | some tr =>
      let newHdg := normDeg (hdg + seg.2)
      let turnTr : List Cmd :=
        [Cmd.setHeading (pyInt (applyOffset off newHdg)), Cmd.sleep 0.05]
      match runLapGo denvs m170 off fuel rest newHdg (i + 1) with
      | none => none
      | some out => some (⟨hdg, spd, seg.2, newHdg⟩ :: out.1, tr ++ turnTr ++ out.2)

/-- `run_lap_by_distance(api, start_heading_deg=0)`: normalize the start
heading and run the configured segment list. -/
def runLapByDistance (denvs : ℕ → DriveEnv) (m170 off startHdg : ℝ)
    (fuel : ℕ) : Option (List LegRec × List Cmd) :=
  runLapGo denvs m170 off fuel SEGMENTS_DISTANCE_TURNS (normDeg startHdg) 0

/-- Statement-side description of claim C8: the per-leg speed selection rule
and the running-heading recurrence, as the spec words them. -/
def expectedLegs : List (ℝ × ℝ) → ℝ → List LegRec
  | [], _ => []
  | seg :: rest, hdg =>
    ⟨hdg, (if 20 < |seg.2| then TURN_SPEED else STRAIGHT_SPEED), seg.2,
      normDeg (hdg + seg.2)⟩ :: expectedLegs rest (normDeg (hdg + seg.2))

end

/-! ### Arithmetic lemmas about the helpers -/

theorem normDeg_nonneg (a : ℝ) : 0 ≤ normDeg a := by
  have h : ((⌊(a + 360) / 360⌋ : ℝ)) ≤ (a + 360) / 360 := Int.floor_le _
  have h3 : (360 : ℝ) * ((a + 360) / 360) = a + 360 := by ring
  unfold normDeg
  nlinarith

theorem normDeg_lt (a : ℝ) : normDeg a < 360 := by
  have h : (a + 360) / 360 < (⌊(a + 360) / 360⌋ : ℝ) + 1 :=
    Int.lt_floor_add_one _
  have h3 : (360 : ℝ) * ((a + 360) / 360) = a + 360 := by ring
  unfold normDeg
  nlinarith

theorem normDeg_add_int (a : ℝ) (k : ℤ) : normDeg (a + 360 * k) = normDeg a := by
  unfold normDeg
  have h : (a + 360 * (k : ℝ) + 360) / 360 = (a + 360) / 360 + (k : ℝ) := by
    ring
  rw [h, Int.floor_add_int]
  push_cast
  ring

theorem normDeg_neg_normDeg (a : ℝ) : normDeg (-(normDeg a)) = normDeg (-a) := by
  have h : -(normDeg a) = -a + 360 * ((⌊(a + 360) / 360⌋ - 1 : ℤ) : ℝ) := by
    unfold normDeg; push_cast; ring
  rw [h, normDeg_add_int]

theorem normDeg_eq_self {a : ℝ} (h1 : 0 ≤ a) (h2 : a < 360) : normDeg a = a := by
  have hf : ⌊(a + 360) / 360⌋ = 1 := by
    rw [Int.floor_eq_iff]
    constructor
    · rw [le_div_iff₀ (by norm_num : (0 : ℝ) < 360)]
      push_cast; linarith
    · rw [div_lt_iff₀ (by norm_num : (0 : ℝ) < 360)]
      push_cast; linarith
  unfold normDeg
  rw [hf]
  push_cast
  ring

theorem pyInt_bounds {x : ℝ} (h1 : 0 ≤ x) (h2 : x < 360) :
    0 ≤ pyInt x ∧ pyInt x < 360 := by
  unfold pyInt
  rw [if_pos h1]
  exact ⟨Int.floor_nonneg.mpr h1, Int.floor_lt.mpr (by exact_mod_cast h2)⟩

theorem heading_cmd_bounds (off hdg : ℝ) :
    0 ≤ pyInt (applyOffset off hdg) ∧ pyInt (applyOffset off hdg) < 360 :=
  pyInt_bounds (normDeg_nonneg _) (normDeg_lt _)

/-! ### Termination of the distance poll loop -/

section PollLoop

variable (readings : ℕ → Option (ℝ × ℝ)) (times : ℕ → ℝ)
variable (t0 x0 y0 distm bound : ℝ)

/-- The three break conditions of the poll loop at iteration `n`: the read
raised, the accumulated displacement reached the target, or the elapsed time
exceeded the timeout bound. -/
def pollExit (n : ℕ) : Prop :=
  readings n = none ∨
    ∃ loc, readings n = some loc ∧
      (distm ≤ hypot (loc.1 / 1000 - x0) (loc.2 / 1000 - y0) ∨
       bound < times n - t0)

theorem pollLoop_exit_now (fuel n : ℕ) (h : bound < times n - t0) :
    ∃ r, pollLoop readings times t0 x0 y0 distm bound (fuel + 1) n = some r ∧
      pollExit readings times t0 x0 y0 distm bound r := by
  cases hr : readings n with
  | none => exact ⟨n, by simp [pollLoop, hr], Or.inl hr⟩
  | some loc =>
    by_cases hd : distm ≤ hypot (loc.1 / 1000 - x0) (loc.2 / 1000 - y0)
    · exact ⟨n, by simp [pollLoop, hr, hd], Or.inr ⟨loc, hr, Or.inl hd⟩⟩
    · exact ⟨n, by simp [pollLoop, hr, hd, h], Or.inr ⟨loc, hr, Or.inr h⟩⟩

theorem pollLoop_progress :
    ∀ fuel n, bound < times (n + fuel) - t0 →
      ∃ r, pollLoop readings times t0 x0 y0 distm bound (fuel + 1) n = some r ∧
        pollExit readings times t0 x0 y0 distm bound r := by
  intro fuel
  induction fuel with
  | zero =>
    intro n h
    exact pollLoop_exit_now readings times t0 x0 y0 distm bound 0 n
      (by simpa using h)
  | succ k ih =>
    intro n h
    cases hr : readings n with
    | none => exact ⟨n, by simp [pollLoop, hr], Or.inl hr⟩
    | some loc =>
      by_cases hd : distm ≤ hypot (loc.1 / 1000 - x0) (loc.2 / 1000 - y0)
      · exact ⟨n, by simp [pollLoop, hr, hd], Or.inr ⟨loc, hr, Or.inl hd⟩⟩
      · by_cases htm : bound < times n - t0
        · exact ⟨n, by simp [pollLoop, hr, hd, htm], Or.inr ⟨loc, hr, Or.inr htm⟩⟩
        · obtain ⟨r, h1, h2⟩ := ih (n + 1)
            (by rw [show n + 1 + k = n + (k + 1) by ring]; exact h)
          refine ⟨r, ?_, h2⟩
          simpa [pollLoop, hr, hd, htm] using h1

theorem times_lower (ht : ∀ n, times n + 0.02 ≤ times (n + 1)) :
    ∀ n : ℕ, times 0 + 0.02 * n ≤ times n := by
  intro n
  induction n with
  | zero => simp
  | succ k ih =>
    have h := ht k
    push_cast
    push_cast at ih
    linarith

end PollLoop

/-! ### Calibration failure paths -/

theorem tryResetLocator_ok {e : ResetEnv} (h : e.resetPrimary ≠ .otherErr) :
    ∃ b, tryResetLocator e = .ok b := by
  unfold tryResetLocator
  cases hp : e.resetPrimary with
  | ok => exact ⟨true, rfl⟩
  | otherErr => exact absurd hp h
  | attrErr =>
    by_cases h1 : e.fallbackSetLocation
    · simp [h1]
    · by_cases h2 : e.fallbackSetLocator
      · simp [h1, h2]
      · by_cases h3 : e.fallbackSetPosition
        · simp [h1, h2, h3]
        · exact ⟨false, by simp [h1, h2, h3]⟩

/-- A calibration interface whose primary `reset_locator` raises a
non-`AttributeError` exception (e.g. a transient Bluetooth error). -/
def calEnvRaise : CalEnv := ⟨true, ⟨.otherErr, false, false, false⟩, none⟩

/-- Counterexample to claim C1 as stated: with a locator capability present
but the primary reset operation failing with a non-`AttributeError`
exception, `auto_calibrate` does not return normally — the exception
propagates out of the call (the source catches only `AttributeError` around
`api.reset_locator()`, line 97). -/
theorem auto_calibrate_raises_on_reset_error :
    autoCalibrate calEnvRaise ⟨0, 0.6⟩ 120 0.7 = .error () := rfl

/-- C1 (amended): provided the primary reset operation does not raise a
non-`AttributeError` exception, every other outcome of the capability check,
origin reset fallbacks, position read and minimum-displacement check is
non-fatal: `auto_calibrate` returns normally, and on every failure path
(`performed = false`) the globals `HEADING_OFFSET` and `M_PER_S_AT_170` are
left at their prior values. -/
theorem auto_calibrate_failures_nonfatal (env : CalEnv) (st : CalState)
    (ps pt : ℝ) (h : env.reset.resetPrimary ≠ .otherErr) :
    ∃ out, autoCalibrate env st ps pt = .ok out ∧
      (out.performed = false → out.offset = st.offset ∧ out.m170 = st.m170) := by
  cases hl : env.hasLocator with
  | false =>
    refine ⟨⟨st.offset, st.m170, false,
      [Cmd.setSpeed 0, Cmd.sleep 0.2, Cmd.sleep 0.2]⟩, ?_, ?_⟩
    · simp [autoCalibrate, hl]
    · intro _; exact ⟨rfl, rfl⟩
  | true =>
    obtain ⟨b, hb⟩ := tryResetLocator_ok h
    cases b with
    | false =>
      refine ⟨⟨st.offset, st.m170, false,
        [Cmd.setSpeed 0, Cmd.sleep 0.2, Cmd.sleep 0.2]⟩, ?_, ?_⟩
      · simp [autoCalibrate, hl, hb]
      · intro _; exact ⟨rfl, rfl⟩
    | true =>
      cases hloc : env.location with
      | none =>
        refine ⟨⟨st.offset, st.m170, false,
          [Cmd.setSpeed 0, Cmd.sleep 0.2,
           Cmd.setHeading (pyInt (applyOffset st.offset 0)),
           Cmd.setSpeed ps, Cmd.sleep pt, Cmd.setSpeed 0, Cmd.sleep 0.25,
           Cmd.sleep 0.2]⟩, ?_, ?_⟩
        · simp [autoCalibrate, hl, hb, hloc]
        · intro _; exact ⟨rfl, rfl⟩
      | some loc =>
        by_cases hd : hypot (loc.1 / 1000) (loc.2 / 1000) < 0.02
        · refine ⟨⟨st.offset, st.m170, false,
            [Cmd.setSpeed 0, Cmd.sleep 0.2,
             Cmd.setHeading (pyInt (applyOffset st.offset 0)),
             Cmd.setSpeed ps, Cmd.sleep pt, Cmd.setSpeed 0, Cmd.sleep 0.25,
             Cmd.sleep 0.2]⟩, ?_, ?_⟩
          · simp [autoCalibrate, hl, hb, hloc, hd]
          · intro _; exact ⟨rfl, rfl⟩
        · refine ⟨⟨normDeg (-(normDeg (degrees
            (atan2 (-(loc.2 / 1000)) (loc.1 / 1000))))),
            max 0.45 (min 0.85 (hypot (loc.1 / 1000) (loc.2 / 1000) / pt *
              170 / ps)), true,
            [Cmd.setSpeed 0, Cmd.sleep 0.2,
             Cmd.setHeading (pyInt (applyOffset st.offset 0)),
             Cmd.setSpeed ps, Cmd.sleep pt, Cmd.setSpeed 0, Cmd.sleep 0.25,
             Cmd.sleep 0.2]⟩, ?_, ?_⟩
          · simp [autoCalibrate, hl, hb, hloc, hd]
          · intro hf; exact absurd hf (by simp)

/-- A calibration interface with no position-feedback capability. -/
def calEnvNoLoc : CalEnv := ⟨false, ⟨.ok, false, false, false⟩, none⟩

theorem auto_calibrate_failures_nonfatal_witness :
    ∃ out, autoCalibrate calEnvNoLoc ⟨0, 0.6⟩ 120 0.7 = .ok out ∧
      (out.performed = false → out.offset = 0 ∧ out.m170 = 0.6) :=
  auto_calibrate_failures_nonfatal calEnvNoLoc ⟨0, 0.6⟩ 120 0.7 (by decide)

/-- C2: the closed-loop poll loop of `drive_forward_distance` always exits:
for every stream of position readings and every timeout bound, as long as
each `time.sleep(0.02)` advances the wall clock by at least the 20 ms poll
interval, some iteration breaks the loop — because a read fails, because the
accumulated displacement reaches the target, or because the elapsed time
exceeds the timeout `est * timeout_factor`; it never loops forever. -/
theorem drive_poll_loop_terminates (readings : ℕ → Option (ℝ × ℝ))
    (times : ℕ → ℝ) (t0 x0 y0 distm bound : ℝ)
    (ht : ∀ n, times n + 0.02 ≤ times (n + 1)) :
    ∃ fuel r, pollLoop readings times t0 x0 y0 distm bound fuel 0 = some r ∧
      pollExit readings times t0 x0 y0 distm bound r := by
  obtain ⟨m, hm⟩ := exists_nat_gt ((bound + t0 - times 0) / 0.02)
  have h1 := times_lower times ht m
  have h2 : bound + t0 - times 0 < 0.02 * m := by
    rw [div_lt_iff₀ (by norm_num : (0 : ℝ) < 0.02)] at hm
    linarith
  have hb : bound < times (0 + m) - t0 := by
    simp only [Nat.zero_add]
    linarith
  obtain ⟨r, hr, hc⟩ :=
    pollLoop_progress readings times t0 x0 y0 distm bound m 0 hb
  exact ⟨m + 1, r, hr, hc⟩

theorem drive_poll_loop_terminates_witness :
    (∀ n : ℕ, (fun k : ℕ => 0.02 * (k : ℝ)) n + 0.02 ≤
      (fun k : ℕ => 0.02 * (k : ℝ)) (n + 1)) ∧
    ∃ fuel r, pollLoop (fun _ => none) (fun k : ℕ => 0.02 * (k : ℝ))
        0 0 0 1 2 fuel 0 = some r ∧
      pollExit (fun _ => none) (fun k : ℕ => 0.02 * (k : ℝ)) 0 0 0 1 2 r :=
  ⟨fun n => by push_cast; linarith,
   drive_poll_loop_terminates (fun _ => none) (fun k : ℕ => 0.02 * (k : ℝ))
     0 0 0 1 2 (fun n => by push_cast; linarith)⟩

/-- C3: on every normal exit path of `drive_forward_distance` — target
distance reached, poll timeout, mid-poll read failure, or the open-loop
fallback — the emitted trace is the non-zero drive command pair followed by
commands none of which is a `set_speed`, closed by the `set_speed(0)` stop
and the `PAUSE_SEG` settle pause. -/
theorem drive_forward_distance_always_stops (env : DriveEnv)
    (m170 off hdg distm speed tf : ℝ) (fuel : ℕ) (tr : List Cmd)
    (h : driveForwardDistance env m170 off hdg distm speed tf fuel = some tr) :
    ∃ mid, tr = Cmd.setHeading (pyInt (applyOffset off hdg)) ::
        Cmd.setSpeed ((pyInt speed : ℤ) : ℝ) ::
        (mid ++ [Cmd.setSpeed 0, Cmd.sleep PAUSE_SEG]) ∧
      ∀ c ∈ mid, ∀ v, c ≠ Cmd.setSpeed v := by
  simp only [driveForwardDistance] at h
  split at h
  · exact absurd h (by simp)
  · split at h
    · split at h
      · exact absurd h (by simp)
      next n hn =>
        injection h with h
        refine ⟨List.replicate n (Cmd.sleep 0.02), ?_, ?_⟩
        · rw [← h]; simp
        · intro c hc v
          rw [List.eq_of_mem_replicate hc]
          simp
    · injection h with h
      refine ⟨[Cmd.sleep (openLoopDur m170 distm speed)], ?_, ?_⟩
      · rw [← h]; simp
      · intro c hc v
        simp only [List.mem_singleton] at hc
        rw [hc]
        simp

/-- The environment of a drive call on an interface without the locator
capability: the open-loop branch is forced. -/
def envOpenLoop : DriveEnv :=
  ⟨false, ⟨.ok, false, false, false⟩, none, fun _ => none, fun _ => 0, 0⟩

theorem drive_forward_distance_always_stops_witness :
    ∃ mid, [Cmd.setHeading (pyInt (applyOffset 0 0)),
        Cmd.setSpeed ((pyInt 180 : ℤ) : ℝ),
        Cmd.sleep (openLoopDur 0.6 1 180), Cmd.setSpeed 0,
        Cmd.sleep PAUSE_SEG] =
      Cmd.setHeading (pyInt (applyOffset 0 0)) ::
        Cmd.setSpeed ((pyInt 180 : ℤ) : ℝ) ::
        (mid ++ [Cmd.setSpeed 0, Cmd.sleep PAUSE_SEG]) ∧
      ∀ c ∈ mid, ∀ v, c ≠ Cmd.setSpeed v :=
  drive_forward_distance_always_stops envOpenLoop 0.6 0 0 1 180 2 0 _ rfl

/-- C10: when the capability check and the origin reset succeed but the
initial position read (taken after the heading and speed have already been
commanded) fails, `drive_forward_distance` does not stop at once: it
silently degrades to the open-loop branch, sleeping the full model-estimated
duration before the stop command is issued. -/
theorem drive_initial_read_failure_degrades_open_loop (env : DriveEnv)
    (m170 off hdg distm speed tf : ℝ) (fuel : ℕ)
    (h1 : env.hasLocator = true)
    (h2 : tryResetLocator env.reset = .ok true)
    (h3 : env.initialRead = none) :
    driveForwardDistance env m170 off hdg distm speed tf fuel =
      some [Cmd.setHeading (pyInt (applyOffset off hdg)),
        Cmd.setSpeed ((pyInt speed : ℤ) : ℝ),
        Cmd.sleep (openLoopDur m170 distm speed),
        Cmd.setSpeed 0, Cmd.sleep PAUSE_SEG] := by
  unfold driveForwardDistance driveUseLocator
  rw [h1]
  simp [h2, h3]

/-- The environment of a drive call where the locator capability and origin
reset are present but the initial position read raises. -/
def envInitReadFail : DriveEnv :=
  ⟨true, ⟨.ok, false, false, false⟩, none, fun _ => none, fun _ => 0, 0⟩

theorem drive_initial_read_failure_degrades_open_loop_witness :
    driveForwardDistance envInitReadFail 0.6 0 0 1 180 2 0 =
      some [Cmd.setHeading (pyInt (applyOffset 0 0)),
        Cmd.setSpeed ((pyInt 180 : ℤ) : ℝ),
        Cmd.sleep (openLoopDur 0.6 1 180),
        Cmd.setSpeed 0, Cmd.sleep PAUSE_SEG] :=
  drive_initial_read_failure_degrades_open_loop envInitReadFail
    0.6 0 0 1 180 2 0 rfl rfl rfl

/-- C7: the open-loop duration `distance_m / max(v_ms, 1e-6)` is total and,
for non-negative distance and speed, non-negative (the division is guarded
by the `max` with the positive epsilon, so it is well defined — hence finite
— for every input), and the duration of a zero distance is zero. -/
theorem motion_duration_total_nonneg (m170 d s : ℝ) (hd : 0 ≤ d)
    (_hs : 0 ≤ s) :
    0 ≤ openLoopDur m170 d s ∧ openLoopDur m170 0 s = 0 := by
  unfold openLoopDur
  constructor
  · apply div_nonneg hd
    have h : (0 : ℝ) < 1 / 1000000 := by norm_num
    exact le_of_lt (lt_of_lt_of_le h (le_max_right _ _))
  · exact zero_div _

theorem motion_duration_total_nonneg_witness :
    (0 : ℝ) ≤ 1 ∧ (0 : ℝ) ≤ 0 ∧
      (0 ≤ openLoopDur 0.6 1 0 ∧ openLoopDur 0.6 0 0 = 0) :=
  ⟨by norm_num, le_refl 0,
   motion_duration_total_nonneg 0.6 1 0 (by norm_num) (le_refl 0)⟩

/-! ### Heading commands in traces -/

theorem cal_trace_heading (env : CalEnv) (st : CalState) (ps pt : ℝ)
    (out : CalOut) (h : autoCalibrate env st ps pt = .ok out) :
    ∀ v, Cmd.setHeading v ∈ out.trace → 0 ≤ v ∧ v < 360 := by
  intro v hv
  simp only [autoCalibrate] at h
  split at h
  · split at h
    · exact absurd h (by simp)
    · injection h with h
      rw [← h] at hv
      simp at hv
    · split at h
      · injection h with h
        rw [← h] at hv
        simp at hv
        rw [hv]
        exact heading_cmd_bounds st.offset 0
      · split at h
        · injection h with h
          rw [← h] at hv
          simp at hv
          rw [hv]
          exact heading_cmd_bounds st.offset 0
        · injection h with h
          rw [← h] at hv
          simp at hv
          rw [hv]
          exact heading_cmd_bounds st.offset 0
  · injection h with h
    rw [← h] at hv
    simp at hv

theorem drive_trace_heading (env : DriveEnv) (m170 off hdg distm speed tf : ℝ)
    (fuel : ℕ) (tr : List Cmd)
    (h : driveForwardDistance env m170 off hdg distm speed tf fuel = some tr) :
    ∀ v, Cmd.setHeading v ∈ tr → v = pyInt (applyOffset off hdg) := by
  intro v hv
  simp only [driveForwardDistance] at h
  split at h
  · exact absurd h (by simp)
  · split at h
    · split at h
      · exact absurd h (by simp)
      · injection h with h
        rw [← h] at hv
        simp at hv
        exact hv
    · injection h with h
      rw [← h] at hv
      simp at hv
      exact hv

theorem lap_trace_heading (denvs : ℕ → DriveEnv) (m170 off : ℝ) (fuel : ℕ) :
    ∀ segs hdg i legs tr,
      runLapGo denvs m170 off fuel segs hdg i = some (legs, tr) →
      ∀ v, Cmd.setHeading v ∈ tr → 0 ≤ v ∧ v < 360 := by
  intro segs
  induction segs with
  | nil =>
    intro hdg i legs tr h v hv
    simp only [runLapGo, Option.some.injEq, Prod.mk.injEq] at h
    rw [← h.2] at hv
    simp at hv
  | cons seg rest ih =>
    intro hdg i legs tr h v hv
    simp only [runLapGo] at h
    split at h
    · exact absurd h (by simp)
    next tr1 hdrive =>
      split at h
      · exact absurd h (by simp)
      next out hrest =>
        simp only [Option.some.injEq, Prod.mk.injEq] at h
        rw [← h.2] at hv
        simp only [List.append_assoc, List.mem_append] at hv
        rcases hv with hv | hv | hv
        · rw [drive_trace_heading (denvs i) m170 off hdg seg.1 _ 2 fuel tr1
            hdrive v hv]
          exact heading_cmd_bounds off hdg
        · simp at hv
          rw [hv]
          exact heading_cmd_bounds off (normDeg (hdg + seg.2))
        · exact ih (normDeg (hdg + seg.2)) (i + 1) out.1 out.2
            (by rw [hrest]) v hv

/-- C4: `norm_deg` always lands in `[0, 360)`, and every heading value
passed to `set_heading` anywhere in the program — during the calibration
pulse, at the start of each distance-bounded drive, and at each logical
re-aim after a leg — is `int(apply_offset(...))` of a logical heading, hence
lies in `[0, 360)`. -/
theorem headings_always_normalized :
    (∀ h : ℝ, 0 ≤ normDeg h ∧ normDeg h < 360) ∧
    (∀ env st ps pt out, autoCalibrate env st ps pt = Except.ok out →
      ∀ v, Cmd.setHeading v ∈ out.trace → 0 ≤ v ∧ v < 360) ∧
    (∀ denvs m170 off fuel segs hdg i legs tr,
      runLapGo denvs m170 off fuel segs hdg i = some (legs, tr) →
      ∀ v, Cmd.setHeading v ∈ tr → 0 ≤ v ∧ v < 360) :=
  ⟨fun h => ⟨normDeg_nonneg h, normDeg_lt h⟩,
   fun env st ps pt out h => cal_trace_heading env st ps pt out h,
   fun denvs m170 off fuel segs hdg i legs tr h =>
     lap_trace_heading denvs m170 off fuel segs hdg i legs tr h⟩

/-- Environment of a calibration run where the pulse happens but the
position read afterwards raises. -/
def calEnvReadFail : CalEnv := ⟨true, ⟨.ok, false, false, false⟩, none⟩

/-- Concrete evaluation of a one-segment lap over an open-loop drive
environment, used to instantiate the trace theorems. -/
theorem lapEvalW : runLapGo (fun _ => envOpenLoop) 0.6 0 5 [(1, 60)] 0 0 =
    some ([⟨0, TURN_SPEED, 60, normDeg (0 + 60)⟩],
      [Cmd.setHeading (pyInt (applyOffset 0 0)),
       Cmd.setSpeed ((pyInt TURN_SPEED : ℤ) : ℝ),
       Cmd.sleep (openLoopDur 0.6 1 TURN_SPEED),
       Cmd.setSpeed 0, Cmd.sleep PAUSE_SEG,
       Cmd.setHeading (pyInt (applyOffset 0 (normDeg (0 + 60)))),
       Cmd.sleep 0.05]) := by
  simp only [runLapGo]
  rw [show (if (20 : ℝ) < |((1 : ℝ), (60 : ℝ)).2| then TURN_SPEED
      else STRAIGHT_SPEED) = TURN_SPEED from
    if_pos (by rw [show |((1 : ℝ), (60 : ℝ)).2| = (60 : ℝ) from
      abs_of_nonneg (by norm_num)]; norm_num)]
  rfl

theorem headings_always_normalized_witness :
    (0 ≤ normDeg (-90) ∧ normDeg (-90) < 360) ∧
    (∀ v, Cmd.setHeading v ∈
        [Cmd.setSpeed 0, Cmd.sleep 0.2,
         Cmd.setHeading (pyInt (applyOffset 0 0)), Cmd.setSpeed 120,
         Cmd.sleep 0.7, Cmd.setSpeed 0, Cmd.sleep 0.25, Cmd.sleep 0.2] →
      0 ≤ v ∧ v < 360) ∧
    (∀ v, Cmd.setHeading v ∈
        [Cmd.setHeading (pyInt (applyOffset 0 0)),
         Cmd.setSpeed ((pyInt TURN_SPEED : ℤ) : ℝ),
         Cmd.sleep (openLoopDur 0.6 1 TURN_SPEED),
         Cmd.setSpeed 0, Cmd.sleep PAUSE_SEG,
         Cmd.setHeading (pyInt (applyOffset 0 (normDeg (0 + 60)))),
         Cmd.sleep 0.05] →
      0 ≤ v ∧ v < 360) :=
  ⟨headings_always_normalized.1 (-90),
   fun v hv => headings_always_normalized.2.1 calEnvReadFail ⟨0, 0.6⟩ 120 0.7
     ⟨0, 0.6, false,
      [Cmd.setSpeed 0, Cmd.sleep 0.2,
       Cmd.setHeading (pyInt (applyOffset 0 0)), Cmd.setSpeed 120,
       Cmd.sleep 0.7, Cmd.setSpeed 0, Cmd.sleep 0.25, Cmd.sleep 0.2]⟩
     rfl v hv,
   fun v hv => headings_always_normalized.2.2 (fun _ => envOpenLoop) 0.6 0 5
     [(1, 60)] 0 0 [⟨0, TURN_SPEED, 60, normDeg (0 + 60)⟩]
     [Cmd.setHeading (pyInt (applyOffset 0 0)),
      Cmd.setSpeed ((pyInt TURN_SPEED : ℤ) : ℝ),
      Cmd.sleep (openLoopDur 0.6 1 TURN_SPEED),
      Cmd.setSpeed 0, Cmd.sleep PAUSE_SEG,
      Cmd.setHeading (pyInt (applyOffset 0 (normDeg (0 + 60)))),
      Cmd.sleep 0.05] lapEvalW v hv⟩

/-! ### The calibration success path -/

theorem autoCalibrate_success (env : CalEnv) (st : CalState) (ps pt : ℝ)
    (h1 : env.hasLocator = true) (h2 : tryResetLocator env.reset = .ok true)
    (xmm ymm : ℝ) (h3 : env.location = some (xmm, ymm))
    (h4 : ¬ hypot (xmm / 1000) (ymm / 1000) < 0.02) :
    autoCalibrate env st ps pt = .ok
      ⟨normDeg (-(normDeg (degrees (atan2 (-(ymm / 1000)) (xmm / 1000))))),
       max 0.45 (min 0.85 (hypot (xmm / 1000) (ymm / 1000) / pt * 170 / ps)),
       true,
       [Cmd.setSpeed 0, Cmd.sleep 0.2,
        Cmd.setHeading (pyInt (applyOffset st.offset 0)),
        Cmd.setSpeed ps, Cmd.sleep pt, Cmd.setSpeed 0, Cmd.sleep 0.25,
        Cmd.sleep 0.2]⟩ := by
  simp [autoCalibrate, h1, h2, h3, h4]

/-- C6: whenever the measured displacement has magnitude at least the 0.02 m
threshold (and the capability, reset and read steps succeed so that the
computation happens at all), the new heading offset is
`norm((-angle_moved) mod 360)` where `angle_moved` is `atan2(-dy, dx)` in
degrees — equivalently, `norm(-(degrees(atan2(-dy, dx))))`, since `norm_deg`
is invariant under adding multiples of 360. -/
theorem calibration_heading_offset_formula (env : CalEnv) (st : CalState)
    (ps pt xmm ymm : ℝ) (h1 : env.hasLocator = true)
    (h2 : tryResetLocator env.reset = .ok true)
    (h3 : env.location = some (xmm, ymm))
    (h4 : 0.02 ≤ hypot (xmm / 1000) (ymm / 1000)) :
    ∃ out, autoCalibrate env st ps pt = .ok out ∧ out.performed = true ∧
      out.offset = normDeg (-(degrees (atan2 (-(ymm / 1000)) (xmm / 1000)))) :=
  ⟨_, autoCalibrate_success env st ps pt h1 h2 xmm ymm h3 (not_lt.mpr h4),
   rfl, normDeg_neg_normDeg _⟩

/-- Calibration interface reporting a raw displacement of `(0, 300)` mm,
i.e. `dx = 0`, `dy = 0.30` m: motion straight "down" in the raw frame. -/
def calEnvC6 : CalEnv := ⟨true, ⟨.ok, false, false, false⟩, some (0, 300)⟩

theorem hypotC6 : hypot ((0 : ℝ) / 1000) (300 / 1000) = 3 / 10 := by
  unfold hypot
  rw [show ((0 : ℝ) / 1000) ^ 2 + (300 / 1000) ^ 2 = (3 / 10) ^ 2 by norm_num]
  exact Real.sqrt_sq (by norm_num)

theorem atan2C6 : atan2 (-((300 : ℝ) / 1000)) (0 / 1000) = -(Real.pi / 2) := by
  unfold atan2
  rw [if_neg (by norm_num), if_neg (by norm_num), if_neg (by norm_num),
    if_neg (by norm_num), if_pos (by norm_num)]

theorem degreesC6 : degrees (-(Real.pi / 2)) = -90 := by
  unfold degrees
  rw [div_eq_iff Real.pi_ne_zero]
  ring

theorem normDeg_neg90 : normDeg (-90 : ℝ) = 270 := by
  have h := normDeg_add_int (-90) 1
  rw [show ((-90 : ℝ) + 360 * ((1 : ℤ) : ℝ)) = 270 by push_cast; ring] at h
  rw [← h]
  exact normDeg_eq_self (by norm_num) (by norm_num)

theorem calibration_heading_offset_formula_witness :
    ((0.02 : ℝ) ≤ hypot (0 / 1000) (300 / 1000)) ∧
    (∃ out, autoCalibrate calEnvC6 ⟨0, 0.6⟩ 120 0.7 = .ok out ∧
      out.performed = true ∧
      out.offset =
        normDeg (-(degrees (atan2 (-((300 : ℝ) / 1000)) (0 / 1000))))) ∧
    normDeg (-(degrees (atan2 (-((300 : ℝ) / 1000)) (0 / 1000)))) = 90 ∧
    normDeg (degrees (atan2 (-((300 : ℝ) / 1000)) (0 / 1000))) = 270 := by
  have hh : (0.02 : ℝ) ≤ hypot ((0 : ℝ) / 1000) (300 / 1000) := by
    rw [hypotC6]; norm_num
  refine ⟨hh, calibration_heading_offset_formula calEnvC6 ⟨0, 0.6⟩ 120 0.7
    0 300 rfl rfl rfl hh, ?_, ?_⟩
  · rw [atan2C6, degreesC6, show -(-90 : ℝ) = 90 by norm_num]
    exact normDeg_eq_self (by norm_num) (by norm_num)
  · rw [atan2C6, degreesC6]
    exact normDeg_neg90

/-- Calibration interface reporting a raw displacement of `(600, 0)` mm,
i.e. `dx = 0.60`, `dy = 0` m over the 0.70 s pulse at test speed 120. -/
def calEnvC5 : CalEnv := ⟨true, ⟨.ok, false, false, false⟩, some (600, 0)⟩

theorem hypotC5 : hypot ((600 : ℝ) / 1000) (0 / 1000) = 3 / 5 := by
  unfold hypot
  rw [show ((600 : ℝ) / 1000) ^ 2 + (0 / 1000) ^ 2 = (3 / 5) ^ 2 by norm_num]
  exact Real.sqrt_sq (by norm_num)

/-- Counterexample to claim C5 as stated: for the `dx=0.60, dy=0, 0.70 s,
test speed 120` pulse, the computed coefficient is the upper clamp bound
0.85, not approximately 0.7286 — the raw value `0.60/0.70 * 170/120 ≈ 1.214`
exceeds the upper clamp bound, and 0.85 differs from the claimed 0.7286 by
more than 0.1. -/
theorem calibration_speed_coefficient_not_07286 :
    calM170 (autoCalibrate calEnvC5 ⟨0, 0.6⟩ 120 0.7) = 0.85 ∧
    (0.1 : ℝ) < |0.85 - 0.7286| := by
  constructor
  · rw [autoCalibrate_success calEnvC5 ⟨0, 0.6⟩ 120 0.7 rfl rfl 600 0 rfl
      (by rw [hypotC5]; norm_num)]
    show max 0.45 (min 0.85
      (hypot ((600 : ℝ) / 1000) (0 / 1000) / 0.7 * 170 / 120)) = 0.85
    rw [hypotC5,
      min_eq_left (by norm_num : (0.85 : ℝ) ≤ 3 / 5 / 0.7 * 170 / 120)]
    exact max_eq_right (by norm_num)
  · rw [abs_of_nonneg (by norm_num : (0 : ℝ) ≤ 0.85 - 0.7286)]
    norm_num

/-- C5 (amended): for the `dx=0.60, dy=0, 0.70 s, test speed 120` pulse the
computed speed coefficient equals
`clamp(0.60/0.70 * 170/120, 0.45, 0.85)`, and that clamp evaluates to the
upper bound 0.85 (the raw value ≈ 1.214 exceeds it), for every prior state
of the globals. -/
theorem calibration_speed_coefficient_c5 (st : CalState) :
    calM170 (autoCalibrate calEnvC5 st 120 0.7) =
      max 0.45 (min 0.85 ((0.60 : ℝ) / 0.70 * 170 / 120)) ∧
    max 0.45 (min 0.85 ((0.60 : ℝ) / 0.70 * 170 / 120)) = 0.85 := by
  constructor
  · rw [autoCalibrate_success calEnvC5 st 120 0.7 rfl rfl 600 0 rfl
      (by rw [hypotC5]; norm_num)]
    show max 0.45 (min 0.85
      (hypot ((600 : ℝ) / 1000) (0 / 1000) / 0.7 * 170 / 120)) = _
    rw [hypotC5]
    norm_num
  · rw [min_eq_left (by norm_num : (0.85 : ℝ) ≤ 0.60 / 0.70 * 170 / 120)]
    exact max_eq_right (by norm_num)

/-- C8: for every segment list, whenever a lap run returns normally the
per-leg records are exactly: speed = turn speed iff `|turn_delta| > 20` else
straight speed, running heading updated to `norm(previous + turn_delta)`
after each leg, and the new heading commanded (offset applied, as an
integer) in the emitted trace. -/
theorem lap_speed_selection_and_heading_update (denvs : ℕ → DriveEnv)
    (m170 off : ℝ) (fuel : ℕ) :
    ∀ segs hdg i legs tr,
      runLapGo denvs m170 off fuel segs hdg i = some (legs, tr) →
      legs = expectedLegs segs hdg ∧
      ∀ leg ∈ legs, Cmd.setHeading (pyInt (applyOffset off leg.newHdg)) ∈ tr := by
  intro segs
  induction segs with
  | nil =>
    intro hdg i legs tr h
    simp only [runLapGo, Option.some.injEq, Prod.mk.injEq] at h
    obtain ⟨h1, h2⟩ := h
    subst h1
    subst h2
    exact ⟨rfl, by intro leg hleg; simp at hleg⟩
  | cons seg rest ih =>
    intro hdg i legs tr h
    simp only [runLapGo] at h
    split at h
    · exact absurd h (by simp)
    next tr1 hdrive =>
      split at h
      · exact absurd h (by simp)
      next out hrest =>
        simp only [Option.some.injEq, Prod.mk.injEq] at h
        obtain ⟨h1, h2⟩ := h
        obtain ⟨ih1, ih2⟩ := ih (normDeg (hdg + seg.2)) (i + 1) out.1 out.2
          (by rw [hrest])
        constructor
        · rw [← h1, ih1]
          rfl
        · intro leg hleg
          rw [← h1] at hleg
          rw [← h2]
          rcases List.mem_cons.mp hleg with hl | hl
          · subst hl
            simp
          · simp only [List.mem_append]
            exact Or.inr (ih2 leg hl)

theorem lap_speed_selection_and_heading_update_witness :
    [(⟨0, TURN_SPEED, 60, normDeg (0 + 60)⟩ : LegRec)] =
      expectedLegs [(1, 60)] 0 ∧
    ∀ leg ∈ [(⟨0, TURN_SPEED, 60, normDeg (0 + 60)⟩ : LegRec)],
      Cmd.setHeading (pyInt (applyOffset 0 leg.newHdg)) ∈
        [Cmd.setHeading (pyInt (applyOffset 0 0)),
         Cmd.setSpeed ((pyInt TURN_SPEED : ℤ) : ℝ),
         Cmd.sleep (openLoopDur 0.6 1 TURN_SPEED),
         Cmd.setSpeed 0, Cmd.sleep PAUSE_SEG,
         Cmd.setHeading (pyInt (applyOffset 0 (normDeg (0 + 60)))),
         Cmd.sleep 0.05] :=
  lap_speed_selection_and_heading_update (fun _ => envOpenLoop) 0.6 0 5
    [(1, 60)] 0 0 _ _ lapEvalW
